import Mathlib

/-!
Verification of the schema-driven data model and spreadsheet export engine
of the item-scribe-export repository.

The TypeScript sources are embedded shallowly:

* JavaScript runtime values stored in an item's `data` map become the
  inductive type `Value`; JS truthiness and `String(...)` become
  `Value.truthy` and `Value.toStr`.
* JS objects used as string-keyed maps become insertion-ordered association
  lists (`List (String × Value)` and, for the export grouping,
  `List (String × List ItemInstance)`).
* Environment-dependent primitives (`toLocaleDateString`, `Date.now`,
  `toISOString`) are passed in as explicit parameters (`fmt`, `nowId`,
  `createdAt`, `today`), so every definition stays executable.
* Early returns of event handlers become `Option` results.

Sources embedded: `src/types/ItemType.ts`, `src/types/Project.ts`,
`src/components/ItemTypeCreator.tsx` (`addField`), `ItemCreator`
(`validateForm`, `handleSave`), `ItemList` (`filteredItems`,
`exportToExcel`, `formatFieldValue`), `src/components/ProjectView.tsx`
(`projectItems`, `availableItems`, `filteredProjectItems`,
`addItemsToProject`, `exportProject`), and `src/pages/Index.tsx`
(`handleDeleteItems`).
-/

/-- A JavaScript value as stored in an item's `data` record.  The program
only ever stores strings (from form inputs), but the claims quantify over
arbitrary stored values, so numbers, booleans and `null` are represented
as well; a missing key is `Option.none` at lookup time (JS `undefined`). -/
inductive Value where
  | vStr (s : String)
  | vNum (n : Int)
  | vBool (b : Bool)
  | vNull
deriving DecidableEq

/-- JavaScript truthiness of a stored value (`!v` is `!v.truthy`). -/
def Value.truthy : Value → Bool
  | .vStr s => !(s == "")
  | .vNum n => !(n == 0)
  | .vBool b => b
  | .vNull => false

/-- JavaScript `String(v)` for a stored value. -/
def Value.toStr : Value → String
  | .vStr s => s
  | .vNum n => toString n
  | .vBool b => if b then "true" else "false"
  | .vNull => "null"

/-- The field kinds of `FieldDefinition.type` in `src/types/ItemType.ts`:
`'text' | 'number' | 'date' | 'select'`. -/
inductive FieldKind where
  | text
  | number
  | date
  | select
deriving DecidableEq

/-- `FieldDefinition` from `src/types/ItemType.ts`.  The source field
`type` is spelled `ftype` because `type` is a reserved word in Lean. -/
structure FieldDefinition where
  id : String
  name : String
  ftype : FieldKind
  required : Bool
  options : Option (List String)
deriving DecidableEq

/-- `ItemType` from `src/types/ItemType.ts`. -/
structure ItemType where
  id : String
  name : String
  fields : List FieldDefinition
  createdAt : String
deriving DecidableEq

/-- `ItemInstance` from `src/types/ItemType.ts`; `data : Record<string, any>`
becomes an insertion-ordered association list. -/
structure ItemInstance where
  id : String
  typeId : String
  typeName : String
  data : List (String × Value)
  createdAt : String
deriving DecidableEq

/-- `Project` from `src/types/Project.ts`. -/
structure Project where
  id : String
  name : String
  description : String
  location : String
  itemIds : List String
  createdAt : String
  updatedAt : String
deriving DecidableEq

/-- JS property read `data[key]`: first binding for `key`, `none` for a
missing key (`undefined`). -/
def dataLookup (data : List (String × Value)) (key : String) : Option Value :=
  (data.find? (fun p => p.1 == key)).map (fun p => p.2)

/-! ### Character-level string helpers

JS `includes`, `toLowerCase`, `split`, `trim`, `slice` and
`replace(/[^a-zA-Z0-9]/g,'_')` are modelled on `List Char` so everything
reduces in the kernel. -/

/-- Does `hay` start with `pat`? (JS `startsWith`, used to define
`includes`.) -/
def startsWithChars : List Char → List Char → Bool
  | [], _ => true
  | _ :: _, [] => false
  | a :: as, b :: bs => a == b && startsWithChars as bs

/-- Does `hay` contain `pat` as a contiguous substring? -/
def hasSubstringChars : List Char → List Char → Bool
  | [], pat => pat.isEmpty
  | c :: rest, pat => startsWithChars pat (c :: rest) || hasSubstringChars rest pat

/-- JS `s.includes(pat)`. -/
def strIncludes (s pat : String) : Bool :=
  hasSubstringChars s.toList pat.toList

/-- JS `s.toLowerCase()` (per-character, ASCII-faithful). -/
def lowerStr (s : String) : String :=
  String.mk (s.toList.map Char.toLower)

/-- JS `s.split(',')` on the character level. -/
def splitCommaAux : List Char → List Char → List String
  | [], cur => [String.mk cur.reverse]
  | c :: rest, cur =>
      if c = ',' then String.mk cur.reverse :: splitCommaAux rest []
      else splitCommaAux rest (c :: cur)

/-- JS `s.split(',')`. -/
def splitComma (s : String) : List String :=
  splitCommaAux s.toList []

/-- JS `s.trim()`. -/
def trimStr (s : String) : String :=
  String.mk (((s.toList.dropWhile Char.isWhitespace).reverse.dropWhile Char.isWhitespace).reverse)

/-- JS `s.slice(0, n)`. -/
def sliceStr (s : String) (n : Nat) : String :=
  String.mk (s.toList.take n)

/-- `project.name.replace(/[^a-zA-Z0-9]/g, '_')` from `exportProject`. -/
def slugify (s : String) : String :=
  String.mk (s.toList.map (fun c => if c.isAlphanum then c else '_'))

/-! ### ItemTypeCreator (`src/components/ItemTypeCreator.tsx`) -/

/-- The `currentField` state of `ItemTypeCreator`
(`Partial<FieldDefinition>`): `type` and `required` may be absent. -/
structure CurrentField where
  name : String
  ftype : Option FieldKind
  required : Option Bool
deriving DecidableEq

/-- `selectOptions.split(',').map(opt => opt.trim()).filter(Boolean)`. -/
def splitOptions (raw : String) : List String :=
  ((splitComma raw).map trimStr).filter (fun opt => !(opt == ""))

/-- `addField` from `ItemTypeCreator` (lines 28-44): `none` models the
early return on an empty field name; otherwise the constructed
`FieldDefinition` is returned.  `nowId` stands for `Date.now()`. -/
def addField (currentField : CurrentField) (selectOptions : String) (nowId : String) :
    Option FieldDefinition :=
  if currentField.name = "" then none
  else some {
    id := "field_" ++ nowId,
    name := currentField.name,
    ftype := currentField.ftype.getD FieldKind.text,
    required := currentField.required.getD false,
    options :=
      if currentField.ftype = some FieldKind.select ∧ ¬ (selectOptions = "") then
        some (splitOptions selectOptions)
      else none }

/-! ### ItemCreator (`validateForm` / `handleSave`) -/

/-- The test `(!formData[field.id] || formData[field.id] === '')` from
`validateForm`, applied to the looked-up value (`none` = `undefined`). -/
def jsMissingOrEmpty (v : Option Value) : Bool :=
  match v with
  | none => true
  | some val => !val.truthy || decide (val = Value.vStr "")

/-- JS record assignment `m[k] = v`: overwrite in place when the key
exists, append otherwise. -/
def recordAssign (m : List (String × String)) (k v : String) : List (String × String) :=
  if m.any (fun p => p.1 == k) then
    m.map (fun p => if p.1 == k then (k, v) else p)
  else m ++ [(k, v)]

/-- The `newErrors` record built by `validateForm` (ItemCreator lines
28-39): one entry `field.id ↦ "<name> is required"` per required field
whose supplied value is missing or falsy. -/
def validateFormErrors (itemType : ItemType) (formData : List (String × Value)) :
    List (String × String) :=
  itemType.fields.foldl
    (fun newErrors field =>
      if field.required && jsMissingOrEmpty (dataLookup formData field.id) then
        recordAssign newErrors field.id (field.name ++ " is required")
      else newErrors)
    []

/-- `validateForm`'s return value: `Object.keys(newErrors).length === 0`. -/
def validateForm (itemType : ItemType) (formData : List (String × Value)) : Bool :=
  (validateFormErrors itemType formData).length == 0

/-- `handleSave` from `ItemCreator` (lines 41-53): the early return on a
failed validation becomes `none`; otherwise the new `ItemInstance` is
built.  `nowId` stands for `Date.now()` and `createdAt` for
`new Date().toISOString()`. -/
def handleSave (itemType : ItemType) (formData : List (String × Value))
    (nowId createdAt : String) : Option ItemInstance :=
  if validateForm itemType formData then
    some {
      id := "item_" ++ nowId,
      typeId := itemType.id,
      typeName := itemType.name,
      data := formData,
      createdAt := createdAt }
  else none

/-! ### Search (`ItemList.filteredItems`, `ProjectView.filteredProjectItems`) -/

/-- The single search predicate both lists apply: the lowercased query is
a substring of the lowercased `typeName` or of the lowercased string form
of some value in `data`. -/
def matchesQuery (item : ItemInstance) (query : String) : Bool :=
  strIncludes (lowerStr item.typeName) (lowerStr query)
    || (item.data.map (fun p => p.2)).any
        (fun value => strIncludes (lowerStr value.toStr) (lowerStr query))

/-- `filteredItems` from `ItemList` (lines 22-36), verbatim: early return
of the whole list on an empty search term, otherwise the inline filter. -/
def filteredItems (items : List ItemInstance) (searchTerm : String) : List ItemInstance :=
  if searchTerm = "" then items
  else
    items.filter (fun item =>
      if strIncludes (lowerStr item.typeName) (lowerStr searchTerm) then true
      else (item.data.map (fun p => p.2)).any
        (fun value => strIncludes (lowerStr value.toStr) (lowerStr searchTerm)))

/-- `projectItems` from `ProjectView` (line 48). -/
def projectItems (project : Project) (allItems : List ItemInstance) : List ItemInstance :=
  allItems.filter (fun item => project.itemIds.contains item.id)

/-- `availableItems` from `ProjectView` (line 51): the items offered by
the add-items dialog, i.e. those not already in the project. -/
def availableItems (project : Project) (allItems : List ItemInstance) : List ItemInstance :=
  allItems.filter (fun item => !(project.itemIds.contains item.id))

/-- `filteredProjectItems` from `ProjectView` (lines 53-67), verbatim. -/
def filteredProjectItems (project : Project) (allItems : List ItemInstance)
    (searchTerm : String) : List ItemInstance :=
  if searchTerm = "" then projectItems project allItems
  else
    (projectItems project allItems).filter (fun item =>
      if strIncludes (lowerStr item.typeName) (lowerStr searchTerm) then true
      else (item.data.map (fun p => p.2)).any
        (fun value => strIncludes (lowerStr value.toStr) (lowerStr searchTerm)))

/-! ### Project membership mutation -/

/-- `addItemsToProject` from `ProjectView` (lines 102-111):
`itemIds: [...project.itemIds, ...itemIds]` — a plain append.  `now`
stands for `new Date().toISOString()`. -/
def addItemsToProject (project : Project) (itemIds : List String) (now : String) : Project :=
  { project with
    itemIds := project.itemIds ++ itemIds,
    updatedAt := now }

/-- `handleDeleteItems` from `Index` (lines 53-65): filters the deleted
ids out of the item list and out of every project's `itemIds`, stamping
`updatedAt` on every project. -/
def handleDeleteItems (items : List ItemInstance) (projects : List Project)
    (itemIds : List String) (now : String) : List ItemInstance × List Project :=
  (items.filter (fun item => !(itemIds.contains item.id)),
   projects.map (fun project =>
     { project with
       itemIds := project.itemIds.filter (fun id => !(itemIds.contains id)),
       updatedAt := now }))

/-! ### Spreadsheet export (`ItemList.exportToExcel`, `ProjectView.exportProject`) -/

/-- JS `item.data[field.id] || ''`: the stored value when truthy, the
empty string otherwise (also when the key is missing). -/
def jsOrEmpty : Option Value → Value
  | none => Value.vStr ""
  | some v => if v.truthy then v else Value.vStr ""

/-- One data row of an export sheet (the arrow function at
`ItemList` lines 80-84 / `ProjectView` lines 145-149):
`[item.id, new Date(item.createdAt).toLocaleDateString(), ...fields.map(field => item.data[field.id] || '')]`.
`fmt` is the ambient `toLocaleDateString`. -/
def rowFor (fmt : String → String) (itemType : ItemType) (item : ItemInstance) : List Value :=
  Value.vStr item.id :: Value.vStr (fmt item.createdAt)
    :: itemType.fields.map (fun field => jsOrEmpty (dataLookup item.data field.id))

/-- `String(row[i] || '')` used by the column-width heuristic; an
out-of-range index is JS `undefined`, hence `''`. -/
def rowCellStr (row : List Value) (i : Nat) : String :=
  match row.get? i with
  | none => ""
  | some v => (jsOrEmpty (some v)).toStr

/-- Column width `min(max(header.length, ...cell lengths) + 2, 50)`
(`ItemList` lines 90-96). -/
def colWidth (headers : List String) (rows : List (List Value)) (i : Nat) : Nat :=
  let maxLength := rows.foldl (fun m row => max m (rowCellStr row i).length)
    (headers.getD i "").length
  min (maxLength + 2) 50

/-- One worksheet of the produced workbook: its (truncated) name, its
cell grid `[headers, ...rows]`, and the `!cols` widths. -/
structure Sheet where
  name : String
  cells : List (List Value)
  colWidths : List Nat
deriving DecidableEq

/-- The sheet built for one group (`ItemList` lines 76-99): header row
`['ID', 'Created At', ...field names]`, one data row per record in group
order, column widths, and the name truncated to 31 characters. -/
def buildSheet (fmt : String → String) (itemType : ItemType) (typeName : String)
    (typeItems : List ItemInstance) : Sheet :=
  let headers := "ID" :: "Created At" :: itemType.fields.map (fun field => field.name)
  let rows := typeItems.map (rowFor fmt itemType)
  { name := sliceStr typeName 31,
    cells := headers.map Value.vStr :: rows,
    colWidths := (List.range headers.length).map (colWidth headers rows) }

/-- One step of the grouping `reduce` (`ItemList` lines 62-68): if a group
for `item.typeName` exists, push the item onto it, otherwise append a new
singleton group.  (A JS object keyed by strings is an insertion-ordered
association list.) -/
def groupStep (acc : List (String × List ItemInstance)) (item : ItemInstance) :
    List (String × List ItemInstance) :=
  if acc.any (fun p => p.1 == item.typeName) then
    acc.map (fun p => if p.1 == item.typeName then (p.1, p.2 ++ [item]) else p)
  else acc ++ [(item.typeName, [item])]

/-- `groupedByType`: partition the records by `typeName`, keys in
first-encounter order. -/
def groupedByType (records : List ItemInstance) : List (String × List ItemInstance) :=
  records.foldl groupStep []

/-- The `Object.entries(groupedByType).forEach` loop shared verbatim by
`exportToExcel` and `exportProject`: resolve each group's type by name
(first match), skip the group if none is found, and build its sheet. -/
def exportSheets (fmt : String → String) (itemTypes : List ItemType)
    (records : List ItemInstance) : List Sheet :=
  (groupedByType records).filterMap (fun p =>
    match itemTypes.find? (fun t => t.name == p.1) with
    | none => none
    | some itemType => some (buildSheet fmt itemType p.1 p.2))

/-- `exportToExcel` from `ItemList` (lines 56-103): `none` models the
early return when no items are selected; otherwise the produced file name
and sheets.  `today` stands for
`new Date().toISOString().split('T')[0]`. -/
def exportToExcel (fmt : String → String) (itemTypes : List ItemType)
    (items : List ItemInstance) (selected : List String) (today : String) :
    Option (String × List Sheet) :=
  if selected.length == 0 then none
  else
    let selectedItemsData := items.filter (fun item => selected.contains item.id)
    some ("items_export_" ++ today ++ ".xlsx", exportSheets fmt itemTypes selectedItemsData)

/-- `exportProject` from `ProjectView` (lines 113-168): `none` models the
early return when the project resolves no member items; otherwise the file
name and the workbook, a `Project Info` sheet followed by the per-type
sheets. -/
def exportProject (fmt : String → String) (itemTypes : List ItemType)
    (project : Project) (allItems : List ItemInstance) (today : String) :
    Option (String × List Sheet) :=
  let pItems := projectItems project allItems
  if pItems.length == 0 then none
  else
    let infoSheet : Sheet := {
      name := "Project Info",
      cells := [
        [Value.vStr "Project Name", Value.vStr project.name],
        [Value.vStr "Description", Value.vStr project.description],
        [Value.vStr "Location", Value.vStr project.location],
        [Value.vStr "Created At", Value.vStr (fmt project.createdAt)],
        [Value.vStr "Updated At", Value.vStr (fmt project.updatedAt)],
        [Value.vStr "Total Items", Value.vNum (Int.ofNat pItems.length)]],
      colWidths := [] }
    some (slugify project.name ++ "_export_" ++ today ++ ".xlsx",
      infoSheet :: exportSheets fmt itemTypes pItems)

/-- `formatFieldValue` from `ItemList` lines 118-123 / `ProjectView`
lines 174-179 — the on-screen display helper (NOT used by export): a
truthy value of a date-kind field is locale-formatted, everything else is
`String(value || '')`. -/
def formatFieldValue (fmt : String → String) (value : Option Value)
    (field : FieldDefinition) : String :=
  match value with
  | some v =>
      if field.ftype = FieldKind.date ∧ v.truthy then fmt v.toStr
      else if v.truthy then v.toStr else ""
  | none => ""

/-- Rendering rule for exported data cells as the specification's §4.5
step 4 words it (spec-side definition, for comparison with the code's
`rowFor`): a present, non-empty value of a date-kind field is rendered as
a locale date string, other values via their natural string form, missing
values as the empty string. -/
def specExportCellRendering (fmt : String → String) (field : FieldDefinition)
    (data : List (String × Value)) : String :=
  match dataLookup data field.id with
  | none => ""
  | some v => if field.ftype = FieldKind.date ∧ v.truthy then fmt v.toStr else v.toStr

/-! ## Helper notions used by the theorems -/

/-- First-encounter deduplication: the order in which fresh names (not in
`seen`) appear in a list, each kept once. -/
def dedupFirstAux (seen : List String) : List String → List String
  | [] => []
  | n :: rest =>
      if seen.contains n then dedupFirstAux seen rest
      else n :: dedupFirstAux (n :: seen) rest

/-- Lookup of a group by key in the grouping accumulator. -/
def lookupGroup (acc : List (String × List ItemInstance)) (n : String) :
    Option (List ItemInstance) :=
  (acc.find? (fun p => p.1 == n)).map (fun p => p.2)

/-- Appending a tail of later-encountered records to an optional group. -/
def combineG : Option (List ItemInstance) → List ItemInstance → Option (List ItemInstance)
  | some g, tail => some (g ++ tail)
  | none, [] => none
  | none, t :: ts => some (t :: ts)

/-! ## Substring semantics -/

theorem startsWithChars_iff (pat hay : List Char) :
    startsWithChars pat hay = true ↔ pat <+: hay := by
  induction pat generalizing hay with
  | nil => simp [startsWithChars, List.nil_prefix]
  | cons a as ih =>
    cases hay with
    | nil => simp [startsWithChars]
    | cons b bs =>
      simp [startsWithChars, List.cons_prefix_cons, ih, Bool.and_eq_true, beq_iff_eq]

theorem hasSubstringChars_iff (hay pat : List Char) :
    hasSubstringChars hay pat = true ↔ pat <:+: hay := by
  induction hay with
  | nil =>
    simp only [hasSubstringChars, List.isEmpty_iff]
    constructor
    · rintro rfl; exact List.infix_rfl
    · intro h; exact List.eq_nil_of_infix_nil h
  | cons c rest ih =>
    simp [hasSubstringChars, Bool.or_eq_true, startsWithChars_iff, ih,
      List.infix_cons_iff]

theorem hasSubstringChars_nil (hay : List Char) :
    hasSubstringChars hay [] = true := by
  cases hay with
  | nil => rfl
  | cons c rest => simp [hasSubstringChars, startsWithChars]

theorem strIncludes_iff (s pat : String) :
    strIncludes s pat = true ↔ pat.toList <:+: s.toList :=
  hasSubstringChars_iff s.toList pat.toList

theorem strIncludes_empty (s : String) : strIncludes s "" = true :=
  hasSubstringChars_nil s.toList

/-! ## dedupFirstAux -/

theorem dedupFirstAux_congr (l : List String) :
    ∀ seen₁ seen₂ : List String, (∀ x, x ∈ seen₁ ↔ x ∈ seen₂) →
    dedupFirstAux seen₁ l = dedupFirstAux seen₂ l := by
  induction l with
  | nil => intro _ _ _; rfl
  | cons n rest ih =>
    intro seen₁ seen₂ h
    have hc : seen₁.contains n = seen₂.contains n := by
      by_cases hm : n ∈ seen₁
      · have hm₂ : n ∈ seen₂ := (h n).1 hm
        simp [List.contains, List.elem_iff, hm, hm₂]
      · have hm₂ : n ∉ seen₂ := fun hx => hm ((h n).2 hx)
        simp [List.contains, List.elem_iff, hm, hm₂]
    simp only [dedupFirstAux, hc]
    by_cases hm : seen₂.contains n = true
    · rw [if_pos hm, if_pos hm]
      exact ih seen₁ seen₂ h
    · rw [if_neg hm, if_neg hm]
      have h' : ∀ x, x ∈ n :: seen₁ ↔ x ∈ n :: seen₂ := by
        intro x; simp [h x]
      rw [ih (n :: seen₁) (n :: seen₂) h']

theorem mem_dedupFirstAux {x : String} (l : List String) :
    ∀ seen, x ∈ dedupFirstAux seen l → x ∈ l := by
  induction l with
  | nil => intro _ h; exact absurd h (List.not_mem_nil x)
  | cons n rest ih =>
    intro seen h
    simp only [dedupFirstAux] at h
    by_cases hc : seen.contains n = true
    · rw [if_pos hc] at h
      exact List.mem_cons_of_mem n (ih seen h)
    · rw [if_neg hc] at h
      rcases List.mem_cons.1 h with h | h
      · exact h ▸ List.mem_cons_self x rest
      · exact List.mem_cons_of_mem n (ih (n :: seen) h)

theorem not_mem_seen_of_mem_dedupFirstAux {x : String} (l : List String) :
    ∀ seen, x ∈ dedupFirstAux seen l → x ∉ seen := by
  induction l with
  | nil => intro _ h; exact absurd h (List.not_mem_nil x)
  | cons n rest ih =>
    intro seen h
    simp only [dedupFirstAux] at h
    by_cases hc : seen.contains n = true
    · rw [if_pos hc] at h
      exact ih seen h
    · rw [if_neg hc] at h
      rcases List.mem_cons.1 h with h | h
      · subst h
        intro hmem
        exact hc (by simpa [List.contains, List.elem_iff] using hmem)
      · intro hmem
        exact ih (n :: seen) h (List.mem_cons_of_mem n hmem)

theorem nodup_dedupFirstAux (l : List String) :
    ∀ seen, (dedupFirstAux seen l).Nodup := by
  induction l with
  | nil => intro _; exact List.nodup_nil
  | cons n rest ih =>
    intro seen
    simp only [dedupFirstAux]
    by_cases hc : seen.contains n = true
    · rw [if_pos hc]; exact ih seen
    · rw [if_neg hc]
      refine List.nodup_cons.2 ⟨?_, ih (n :: seen)⟩
      intro hmem
      exact not_mem_seen_of_mem_dedupFirstAux rest (n :: seen) hmem
        (List.mem_cons_self n seen)

theorem dedupFirstAux_eq_nil (l : List String) :
    ∀ seen, (∀ x ∈ l, x ∈ seen) → dedupFirstAux seen l = [] := by
  induction l with
  | nil => intro _ _; rfl
  | cons n rest ih =>
    intro seen h
    have hc : seen.contains n = true := by
      simpa [List.contains, List.elem_iff] using h n (List.mem_cons_self n rest)
    simp only [dedupFirstAux, if_pos hc]
    exact ih seen (fun x hx => h x (List.mem_cons_of_mem n hx))

theorem dedupFirstAux_const {n : String} (l : List String) (hne : l ≠ [])
    (hall : ∀ x ∈ l, x = n) : dedupFirstAux [] l = [n] := by
  cases l with
  | nil => exact absurd rfl hne
  | cons a rest =>
    have ha : a = n := hall a (List.mem_cons_self a rest)
    subst ha
    have hc : ([] : List String).contains a = false := rfl
    simp only [dedupFirstAux, hc, Bool.false_eq_true, if_false]
    congr 1
    exact dedupFirstAux_eq_nil rest [a] (fun x hx => by
      have := hall x (List.mem_cons_of_mem a hx); simp [this])

/-! ## Grouping lemmas -/

theorem any_key_iff (acc : List (String × List ItemInstance)) (n : String) :
    acc.any (fun p => p.1 == n) = true ↔ n ∈ acc.map Prod.fst := by
  simp only [List.any_eq_true, List.mem_map]
  constructor
  · rintro ⟨p, hp, hb⟩
    exact ⟨p, hp, (beq_iff_eq.1 hb)⟩
  · rintro ⟨p, hp, hb⟩
    exact ⟨p, hp, beq_iff_eq.2 hb⟩

theorem keys_groupStep (acc : List (String × List ItemInstance)) (item : ItemInstance) :
    (groupStep acc item).map Prod.fst =
      if acc.any (fun p => p.1 == item.typeName) then acc.map Prod.fst
      else acc.map Prod.fst ++ [item.typeName] := by
  by_cases h : acc.any (fun p => p.1 == item.typeName) = true
  · rw [if_pos h]
    simp only [groupStep, if_pos h, List.map_map]
    refine List.map_congr_left ?_
    intro p _
    simp only [Function.comp]
    split <;> rfl
  · rw [if_neg h]
    simp [groupStep, if_neg h]

theorem keys_foldl_groupStep (l : List ItemInstance) :
    ∀ acc, (l.foldl groupStep acc).map Prod.fst =
      acc.map Prod.fst
        ++ dedupFirstAux (acc.map Prod.fst) (l.map (fun r => r.typeName)) := by
  induction l with
  | nil => intro acc; simp [dedupFirstAux]
  | cons item rest ih =>
    intro acc
    rw [List.foldl_cons, ih (groupStep acc item), keys_groupStep]
    by_cases h : acc.any (fun p => p.1 == item.typeName) = true
    · rw [if_pos h]
      have hmem : item.typeName ∈ acc.map Prod.fst := (any_key_iff acc item.typeName).1 h
      have hc : (acc.map Prod.fst).contains item.typeName = true := by
        simpa [List.contains, List.elem_iff] using hmem
      rw [List.map_cons]
      have hd : dedupFirstAux (acc.map Prod.fst)
            (item.typeName :: rest.map (fun r => r.typeName))
          = dedupFirstAux (acc.map Prod.fst) (rest.map (fun r => r.typeName)) := by
        simp only [dedupFirstAux]
        rw [if_pos hc]
      rw [hd]
    · rw [if_neg h]
      have hmem : item.typeName ∉ acc.map Prod.fst := by
        intro hx
        exact h ((any_key_iff acc item.typeName).2 hx)
      have hc : (acc.map Prod.fst).contains item.typeName = false := by
        rw [Bool.eq_false_iff]
        intro hx
        exact hmem (by simpa [List.contains, List.elem_iff] using hx)
      have hcongr :
          dedupFirstAux (acc.map Prod.fst ++ [item.typeName])
              (rest.map (fun r => r.typeName))
            = dedupFirstAux (item.typeName :: acc.map Prod.fst)
              (rest.map (fun r => r.typeName)) := by
        refine dedupFirstAux_congr _ _ _ ?_
        intro x; simp [or_comm]
      rw [List.map_cons]
      have hd : dedupFirstAux (acc.map Prod.fst)
            (item.typeName :: rest.map (fun r => r.typeName))
          = item.typeName :: dedupFirstAux (item.typeName :: acc.map Prod.fst)
              (rest.map (fun r => r.typeName)) := by
        simp only [dedupFirstAux]
        rw [if_neg (by rw [hc]; exact Bool.false_ne_true)]
      rw [hd, hcongr, List.append_assoc, List.singleton_append]

theorem find?_map_update (acc : List (String × List ItemInstance)) (tn : String)
    (item : ItemInstance) (n : String) :
    (acc.map (fun p => if p.1 == tn then (p.1, p.2 ++ [item]) else p)).find?
        (fun p => p.1 == n)
      = (acc.find? (fun p => p.1 == n)).map
          (fun p => if p.1 == tn then (p.1, p.2 ++ [item]) else p) := by
  induction acc with
  | nil => rfl
  | cons h t ih =>
    have h1 : ((if h.1 == tn then (h.1, h.2 ++ [item]) else h) : String × List ItemInstance).1
        = h.1 := by
      split <;> rfl
    by_cases hn : (h.1 == n) = true
    · simp only [List.map_cons, List.find?_cons, h1, hn]
      rfl
    · rw [Bool.not_eq_true] at hn
      simp only [List.map_cons, List.find?_cons, h1, hn]
      exact ih

theorem lookupGroup_groupStep (acc : List (String × List ItemInstance))
    (item : ItemInstance) (n : String) :
    lookupGroup (groupStep acc item) n =
      if n = item.typeName then
        match lookupGroup acc n with
        | some g => some (g ++ [item])
        | none => some [item]
      else lookupGroup acc n := by
  by_cases hany : acc.any (fun p => p.1 == item.typeName) = true
  · simp only [groupStep, if_pos hany, lookupGroup, find?_map_update]
    by_cases hn : n = item.typeName
    · subst hn
      have hsome : (acc.find? (fun p => p.1 == item.typeName)).isSome := by
        rw [List.find?_isSome]
        simpa [List.any_eq_true] using hany
      rcases Option.isSome_iff_exists.1 hsome with ⟨q, hq⟩
      have hb : (q.1 == item.typeName) = true := by simpa using List.find?_some hq
      rw [if_pos rfl, hq]
      simp [beq_iff_eq.1 hb]
    · rw [if_neg hn]
      cases hfind : acc.find? (fun p => p.1 == n) with
      | none => rfl
      | some q =>
        have hb : (q.1 == n) = true := by simpa using List.find?_some hfind
        have hne : (q.1 == item.typeName) = false := by
          rw [beq_iff_eq.1 hb]
          exact beq_eq_false_iff_ne.2 hn
        simp [hne]
        rw [if_neg (fun hx => hn ((beq_iff_eq.1 hb).symm.trans hx))]
  · simp only [groupStep, if_neg hany, lookupGroup, List.find?_append]
    have hnone : acc.find? (fun p => p.1 == item.typeName) = none := by
      rw [List.find?_eq_none]
      intro p hp hb
      exact hany (List.any_eq_true.2 ⟨p, hp, hb⟩)
    by_cases hn : n = item.typeName
    · subst hn
      have hsingle : ([(item.typeName, [item])].find? (fun p => p.1 == item.typeName))
          = some (item.typeName, [item]) := by
        simp [List.find?_cons]
      rw [if_pos rfl, hnone, hsingle]
      rfl
    · rw [if_neg hn]
      have hsingle : ([(item.typeName, [item])].find? (fun p => p.1 == n)) = none := by
        rw [List.find?_eq_none]
        intro p hp hb
        rcases List.mem_singleton.1 hp with rfl
        exact hn (beq_iff_eq.1 hb).symm
      rw [hsingle]
      cases hfind : acc.find? (fun p => p.1 == n) <;> rfl

theorem combineG_nil (o : Option (List ItemInstance)) : combineG o [] = o := by
  cases o with
  | none => rfl
  | some g => simp [combineG]

theorem combineG_some (g : List ItemInstance) (t : List ItemInstance) :
    combineG (some g) t = some (g ++ t) := rfl

theorem lookupGroup_foldl (l : List ItemInstance) :
    ∀ (acc : List (String × List ItemInstance)) (n : String),
      lookupGroup (l.foldl groupStep acc) n
        = combineG (lookupGroup acc n) (l.filter (fun r => r.typeName == n)) := by
  induction l with
  | nil => intro acc n; simp [combineG_nil]
  | cons item rest ih =>
    intro acc n
    rw [List.foldl_cons, ih (groupStep acc item) n, lookupGroup_groupStep]
    by_cases hn : n = item.typeName
    · have hb : ((item.typeName == n) : Bool) = true := beq_iff_eq.2 hn.symm
      have hfc : (item :: rest).filter (fun r => r.typeName == n)
          = item :: rest.filter (fun r => r.typeName == n) := by
        simp [List.filter_cons, hb]
      rw [if_pos hn, hfc]
      cases hlk : lookupGroup acc n with
      | some g => simp [combineG_some, combineG, List.append_assoc]
      | none => simp [combineG_some, combineG]
    · have hb : ((item.typeName == n) : Bool) = false :=
        beq_eq_false_iff_ne.2 (fun hx => hn hx.symm)
      have hfc : (item :: rest).filter (fun r => r.typeName == n)
          = rest.filter (fun r => r.typeName == n) := by
        simp [List.filter_cons, hb]
      rw [if_neg hn, hfc]

theorem groupedByType_keys (records : List ItemInstance) :
    (groupedByType records).map Prod.fst
      = dedupFirstAux [] (records.map (fun r => r.typeName)) := by
  have h := keys_foldl_groupStep records []
  simpa [groupedByType] using h

theorem groupedByType_lookup (records : List ItemInstance) (n : String) :
    lookupGroup (groupedByType records) n
      = combineG none (records.filter (fun r => r.typeName == n)) := by
  have h := lookupGroup_foldl records [] n
  simpa [groupedByType, lookupGroup] using h

theorem find?_of_mem_nodup_keys {β : Type} (acc : List (String × β)) (n : String) (g : β)
    (hnd : (acc.map Prod.fst).Nodup) (hmem : (n, g) ∈ acc) :
    acc.find? (fun p => p.1 == n) = some (n, g) := by
  induction acc with
  | nil => exact absurd hmem (List.not_mem_nil (n, g))
  | cons h t ih =>
    rcases List.mem_cons.1 hmem with rfl | hmem'
    · simp [List.find?_cons]
    · have hnd' : h.1 ∉ t.map Prod.fst ∧ (t.map Prod.fst).Nodup := by
        rw [List.map_cons] at hnd
        exact List.nodup_cons.1 hnd
      have hne : (h.1 == n) = false := by
        rw [beq_eq_false_iff_ne]
        intro hx
        exact hnd'.1 (hx ▸ (List.mem_map.2 ⟨(n, g), hmem', rfl⟩))
      simp only [List.find?_cons, hne]
      exact ih hnd'.2 hmem'

theorem mem_groupedByType (records : List ItemInstance) (n : String)
    (g : List ItemInstance) (hmem : (n, g) ∈ groupedByType records) :
    g = records.filter (fun r => r.typeName == n) := by
  have hnd : ((groupedByType records).map Prod.fst).Nodup := by
    rw [groupedByType_keys]
    exact nodup_dedupFirstAux _ []
  have hfind := find?_of_mem_nodup_keys (groupedByType records) n g hnd hmem
  have hl : lookupGroup (groupedByType records) n = some g := by
    simp [lookupGroup, hfind]
  rw [groupedByType_lookup] at hl
  cases hflt : records.filter (fun r => r.typeName == n) with
  | nil => rw [hflt] at hl; exact absurd hl (by simp [combineG])
  | cons a as =>
    rw [hflt] at hl
    simpa [combineG] using hl.symm

/-! ## filterMap helpers -/

theorem length_filterMap_eq_length_filter {α β : Type} (f : α → Option β) (l : List α) :
    (l.filterMap f).length = (l.filter (fun a => (f a).isSome)).length := by
  induction l with
  | nil => rfl
  | cons a t ih =>
    rw [List.filterMap_cons, List.filter_cons]
    cases hf : f a with
    | none => simpa [hf] using ih
    | some b => simpa [hf] using ih

theorem filterMap_eq_map_of_all_some {α β : Type} (f : α → Option β) (d : β) (l : List α)
    (h : ∀ a ∈ l, (f a).isSome) :
    l.filterMap f = l.map (fun a => (f a).getD d) := by
  induction l with
  | nil => rfl
  | cons a t ih =>
    rw [List.filterMap_cons, List.map_cons]
    cases hf : f a with
    | none =>
      have := h a (List.mem_cons_self a t)
      rw [hf] at this
      exact absurd this (by simp)
    | some b =>
      simp only [Option.getD_some]
      rw [ih (fun x hx => h x (List.mem_cons_of_mem a hx))]

/-! ## Sample data used by witnesses and counterexamples -/

/-- Field `Name` of the sample `Products` type. -/
def nameField : FieldDefinition :=
  { id := "f1", name := "Name", ftype := FieldKind.text, required := true, options := none }

/-- Field `Price` of the sample `Products` type. -/
def priceField : FieldDefinition :=
  { id := "f2", name := "Price", ftype := FieldKind.number, required := true, options := none }

/-- Sample `Products` item type with fields `[Name, Price]`. -/
def productsType : ItemType :=
  { id := "type_1", name := "Products", fields := [nameField, priceField],
    createdAt := "2024-01-01" }

/-- A `Products` record with both fields present. -/
def productA : ItemInstance :=
  { id := "i1", typeId := "type_1", typeName := "Products",
    data := [("f1", Value.vStr "Widget"), ("f2", Value.vStr "3")],
    createdAt := "2024-02-01" }

/-- A `Products` record with the `Price` field missing. -/
def productB : ItemInstance :=
  { id := "i2", typeId := "type_1", typeName := "Products",
    data := [("f1", Value.vStr "Gadget")], createdAt := "2024-02-02" }

/-- A sample project containing `productA`. -/
def sampleProject : Project :=
  { id := "p1", name := "Site A", description := "", location := "North",
    itemIds := ["i1"], createdAt := "2024-01-05", updatedAt := "2024-01-06" }

/-- A type with a single required number field. -/
def measureType : ItemType :=
  { id := "type_m", name := "Measures", fields := [priceField], createdAt := "2024-01-02" }

/-- A date-kind field. -/
def dateField : FieldDefinition :=
  { id := "d1", name := "When", ftype := FieldKind.date, required := false, options := none }

/-- A type with a single date field. -/
def dateType : ItemType :=
  { id := "type_d", name := "Events", fields := [dateField], createdAt := "2024-01-03" }

/-- An `Events` record storing an ISO date string in its date field. -/
def eventItem : ItemInstance :=
  { id := "e1", typeId := "type_d", typeName := "Events",
    data := [("d1", Value.vStr "2024-01-15")], createdAt := "2024-01-20" }

/-- A select-kind field draft in the type creator. -/
def selectDraft : CurrentField :=
  { name := "Status", ftype := some FieldKind.select, required := some false }

/-! ## C9: empty export is a no-op -/

/-- C9: export with an empty record set is a no-op.  With zero selected
items `exportToExcel` returns before producing any document, and a project
whose resolved member set is empty makes `exportProject` return before
producing any document; neither raises an error (both are total, the early
return is `none`). -/
theorem export_empty_selection_is_noop :
    (∀ (fmt : String → String) (itemTypes : List ItemType) (items : List ItemInstance)
      (today : String), exportToExcel fmt itemTypes items [] today = none)
    ∧ (∀ (fmt : String → String) (itemTypes : List ItemType) (project : Project)
      (allItems : List ItemInstance) (today : String),
      projectItems project allItems = [] →
      exportProject fmt itemTypes project allItems today = none) := by
  constructor
  · intro fmt itemTypes items today
    rfl
  · intro fmt itemTypes project allItems today h
    simp only [exportProject, h]
    rfl

/-- Witness for C9 at a concrete input: the sample project resolves no
member in an empty item collection, so its export is a no-op. -/
theorem export_empty_selection_is_noop_witness :
    exportProject (fun s => s) [productsType] sampleProject [] "2024-03-01" = none :=
  export_empty_selection_is_noop.2 (fun s => s) [productsType] sampleProject [] "2024-03-01" rfl

/-! ## C4: membership on add -/

/-- C4 counterexample: `addItemsToProject` performs a plain append, so
adding `["i1"]` twice to a project leaves `itemIds = ["i1", "i1"]` — the
id occurs twice, not exactly once as the claim states. -/
theorem addItems_twice_duplicates_counterexample :
    ((addItemsToProject (addItemsToProject
        { sampleProject with itemIds := [] } ["i1"] "t1") ["i1"] "t2").itemIds
      = ["i1", "i1"])
    ∧ ¬ ((addItemsToProject (addItemsToProject
        { sampleProject with itemIds := [] } ["i1"] "t1") ["i1"] "t2").itemIds.count "i1"
        = 1) := by
  decide

/-- C4 amended: `addItemsToProject` appends every given id without
deduplication; the claim's set semantics holds only for the composed
dialog flow, whose candidates come from `availableItems` (items not
already in the project).  When the added ids are distinct and all drawn
from `availableItems`, `itemIds` stays duplicate-free and each added id
occurs exactly once. -/
theorem addItems_from_available_preserves_nodup
    (project : Project) (allItems : List ItemInstance) (ids : List String) (now : String)
    (hnd : ids.Nodup)
    (hav : ∀ x ∈ ids, x ∈ (availableItems project allItems).map (fun item => item.id))
    (hproj : project.itemIds.Nodup) :
    (addItemsToProject project ids now).itemIds.Nodup
    ∧ ∀ x ∈ ids, (addItemsToProject project ids now).itemIds.count x = 1 := by
  have hdisj : ∀ x ∈ ids, x ∉ project.itemIds := by
    intro x hx hmem
    rcases List.mem_map.1 (hav x hx) with ⟨item, hitem, rfl⟩
    have hflt := (List.mem_filter.1 hitem).2
    have hc : project.itemIds.contains item.id = true := by
      simpa [List.contains, List.elem_iff] using hmem
    rw [hc] at hflt
    simp at hflt
  constructor
  · exact List.Nodup.append hproj hnd (fun a ha hb => hdisj a hb ha)
  · intro x hx
    have h1 : project.itemIds.count x = 0 :=
      List.count_eq_zero_of_not_mem (hdisj x hx)
    have h2 : ids.count x = 1 := List.count_eq_one_of_mem hnd hx
    show (project.itemIds ++ ids).count x = 1
    rw [List.count_append, h1, h2]

/-- Witness for the amended C4 at a concrete input: adding `"i2"` (an
available item's id) to the sample project keeps `itemIds` duplicate-free
with `"i2"` occurring exactly once. -/
theorem addItems_from_available_preserves_nodup_witness :
    (addItemsToProject sampleProject ["i2"] "t3").itemIds.Nodup
    ∧ ∀ x ∈ ["i2"], (addItemsToProject sampleProject ["i2"] "t3").itemIds.count x = 1 :=
  addItems_from_available_preserves_nodup sampleProject [productA, productB] ["i2"] "t3"
    (by decide) (by decide) (by decide)

/-! ## C5: deletion cascade -/

/-- C5 counterexample: the sample project contains none of the deleted
ids, yet the cascade hands it back with a refreshed `updatedAt` — it is
not returned unchanged, contradicting the claim that `updatedAt` is
refreshed only on projects whose `itemIds` actually changed. -/
theorem delete_cascade_touches_unaffected_project_counterexample :
    ("zzz" ∉ sampleProject.itemIds)
    ∧ ((handleDeleteItems [] [sampleProject] ["zzz"] "2024-09-09").2
        = [{ sampleProject with updatedAt := "2024-09-09" }])
    ∧ (handleDeleteItems [] [sampleProject] ["zzz"] "2024-09-09").2 ≠ [sampleProject] := by
  decide

/-- C5 amended: the deletion cascade removes every deleted id from every
project's `itemIds` (and removes the deleted items themselves), keeps all
descriptive project fields and the `itemIds` of unaffected projects
unchanged, but refreshes `updatedAt` on every project unconditionally,
changed or not. -/
theorem delete_cascade_filters_ids_and_stamps_every_project
    (items : List ItemInstance) (projects : List Project) (ids : List String) (now : String) :
    ((handleDeleteItems items projects ids now).1
      = items.filter (fun item => !(ids.contains item.id)))
    ∧ ((handleDeleteItems items projects ids now).2.length = projects.length)
    ∧ ∀ i (hi : i < projects.length)
        (hj : i < (handleDeleteItems items projects ids now).2.length),
        (((handleDeleteItems items projects ids now).2.get ⟨i, hj⟩).id
            = (projects.get ⟨i, hi⟩).id)
        ∧ (((handleDeleteItems items projects ids now).2.get ⟨i, hj⟩).name
            = (projects.get ⟨i, hi⟩).name)
        ∧ (((handleDeleteItems items projects ids now).2.get ⟨i, hj⟩).description
            = (projects.get ⟨i, hi⟩).description)
        ∧ (((handleDeleteItems items projects ids now).2.get ⟨i, hj⟩).location
            = (projects.get ⟨i, hi⟩).location)
        ∧ (((handleDeleteItems items projects ids now).2.get ⟨i, hj⟩).createdAt
            = (projects.get ⟨i, hi⟩).createdAt)
        ∧ (((handleDeleteItems items projects ids now).2.get ⟨i, hj⟩).updatedAt = now)
        ∧ (∀ x, x ∈ ((handleDeleteItems items projects ids now).2.get ⟨i, hj⟩).itemIds
            ↔ x ∈ (projects.get ⟨i, hi⟩).itemIds ∧ x ∉ ids)
        ∧ ((∀ x ∈ (projects.get ⟨i, hi⟩).itemIds, x ∉ ids) →
            ((handleDeleteItems items projects ids now).2.get ⟨i, hj⟩).itemIds
              = (projects.get ⟨i, hi⟩).itemIds) := by
  refine ⟨rfl, by simp [handleDeleteItems], ?_⟩
  intro i hi hj
  have hget : (handleDeleteItems items projects ids now).2.get ⟨i, hj⟩
      = { projects.get ⟨i, hi⟩ with
          itemIds := (projects.get ⟨i, hi⟩).itemIds.filter (fun id => !(ids.contains id)),
          updatedAt := now } := by
    simp only [handleDeleteItems]
    exact List.get_map _
  rw [hget]
  have hcontains : ∀ x : String, (!(ids.contains x)) = true ↔ x ∉ ids := by
    intro x
    constructor
    · intro hx hmem
      have hc : ids.contains x = true := by
        simpa [List.contains, List.elem_iff] using hmem
      rw [hc] at hx
      simp at hx
    · intro hmem
      have hc : ids.contains x = false := by
        rw [Bool.eq_false_iff]
        intro hx
        exact hmem (by simpa [List.contains, List.elem_iff] using hx)
      rw [hc]
      rfl
  refine ⟨rfl, rfl, rfl, rfl, rfl, rfl, ?_, ?_⟩
  · intro x
    rw [List.mem_filter]
    exact and_congr_right (fun _ => hcontains x)
  · intro hall
    exact List.filter_eq_self.2 (fun x hx => (hcontains x).2 (hall x hx))

/-- Witness for the amended C5 at a concrete input: deleting an id the
sample project does not contain leaves the item list and the project's
`itemIds` unchanged while `updatedAt` is stamped. -/
theorem delete_cascade_filters_ids_and_stamps_every_project_witness :
    ((handleDeleteItems [productA] [sampleProject] ["i9"] "T").1 = [productA])
    ∧ (((handleDeleteItems [productA] [sampleProject] ["i9"] "T").2.get ⟨0, by decide⟩).updatedAt
        = "T")
    ∧ (((handleDeleteItems [productA] [sampleProject] ["i9"] "T").2.get ⟨0, by decide⟩).itemIds
        = sampleProject.itemIds) := by
  have h := delete_cascade_filters_ids_and_stamps_every_project
    [productA] [sampleProject] ["i9"] "T"
  have h3 := h.2.2 0 (by decide) (by decide)
  refine ⟨?_, h3.2.2.2.2.2.1, ?_⟩
  · rw [h.1]; decide
  · have := h3.2.2.2.2.2.2.2 (by decide)
    simpa using this

/-! ## C7: select options invariant -/

/-- C7 counterexample: with raw option input `","` — which is non-empty
but consists only of empty tokens — `addField` produces a `select` field
whose `options` list is present but empty; with raw input `""` it
produces a `select` field carrying no options at all.  Both contradict
the claimed invariant that every select field carries a present,
non-empty options list. -/
theorem addField_select_empty_options_counterexample :
    (addField selectDraft "," "7"
      = some { id := "field_7", name := "Status", ftype := FieldKind.select,
               required := false, options := some [] })
    ∧ (addField selectDraft "" "8"
      = some { id := "field_8", name := "Status", ftype := FieldKind.select,
               required := false, options := none }) := by
  decide

/-- C7 amended: a field added by `addField` carries an options list
exactly when its kind is `select` and the raw option input was non-empty;
the list is built by splitting on commas, trimming each token and
discarding empty tokens, and it may itself be empty.  A field of any kind
other than `select` never carries options. -/
theorem addField_options_characterization
    (currentField : CurrentField) (selectOptions : String) (nowId : String)
    (f : FieldDefinition) (h : addField currentField selectOptions nowId = some f) :
    (f.ftype ≠ FieldKind.select → f.options = none)
    ∧ (f.ftype = FieldKind.select → selectOptions = "" → f.options = none)
    ∧ (f.ftype = FieldKind.select → ¬ (selectOptions = "") →
        f.options = some (splitOptions selectOptions)) := by
  by_cases hname : currentField.name = ""
  · rw [addField, if_pos hname] at h
    exact absurd h (by simp)
  · rw [addField, if_neg hname] at h
    cases hft : currentField.ftype with
    | none =>
      rw [hft] at h
      rw [if_neg
        (fun hx : (none : Option FieldKind) = some FieldKind.select ∧ ¬ (selectOptions = "") =>
          Option.noConfusion hx.1)] at h
      have hf := (Option.some.inj h).symm
      subst hf
      refine ⟨fun _ => rfl, fun hk _ => ?_, fun hk _ => ?_⟩
      · exact absurd hk (by simp)
      · exact absurd hk (by simp)
    | some k =>
      rw [hft] at h
      by_cases hks : k = FieldKind.select
      · subst hks
        by_cases hopt : selectOptions = ""
        · rw [if_neg
            (fun hx : some FieldKind.select = some FieldKind.select ∧ ¬ (selectOptions = "") =>
              hx.2 hopt)] at h
          have hf := (Option.some.inj h).symm
          subst hf
          exact ⟨fun hk => absurd rfl hk, fun _ _ => rfl, fun _ hne => absurd hopt hne⟩
        · rw [if_pos ⟨rfl, hopt⟩] at h
          have hf := (Option.some.inj h).symm
          subst hf
          exact ⟨fun hk => absurd rfl hk, fun _ h0 => absurd h0 hopt, fun _ _ => rfl⟩
      · rw [if_neg
          (fun hx : some k = some FieldKind.select ∧ ¬ (selectOptions = "") =>
            hks (Option.some.inj hx.1))] at h
        have hf := (Option.some.inj h).symm
        subst hf
        exact ⟨fun _ => rfl, fun hk _ => absurd hk hks, fun hk _ => absurd hk hks⟩

/-- Witness for the amended C7 at a concrete input: a select field added
with raw options `"A, B"` carries exactly the trimmed options. -/
theorem addField_options_characterization_witness :
    ∃ f, addField selectDraft "A, B" "9" = some f ∧ f.options = some ["A", "B"] := by
  have h : addField selectDraft "A, B" "9"
      = some { id := "field_9", name := "Status", ftype := FieldKind.select,
               required := false, options := some ["A", "B"] } := by decide
  have hc := addField_options_characterization selectDraft "A, B" "9" _ h
  exact ⟨_, h, by rw [hc.2.2 (by decide) (by decide)]; decide⟩

/-! ## C10: falsy values render as empty string in export -/

/-- C10: every data row of a built sheet is the rendered row of one record
of its group (in group order), and within such a row any falsy stored
value — missing, the empty string, the number 0, false, or null — is
rendered as the empty string in its field's cell (at offset 2 after the
ID and Created At columns). -/
theorem export_renders_falsy_values_as_empty_string :
    (∀ (fmt : String → String) (t : ItemType) (n : String) (g : List ItemInstance)
      (row : List Value), row ∈ ((buildSheet fmt t n g).cells).tail →
      ∃ item ∈ g, row = rowFor fmt t item)
    ∧ ∀ (fmt : String → String) (t : ItemType) (item : ItemInstance) (i : Nat)
        (hi : i < t.fields.length),
        (dataLookup item.data (t.fields.get ⟨i, hi⟩).id = none
          ∨ dataLookup item.data (t.fields.get ⟨i, hi⟩).id = some (Value.vStr "")
          ∨ dataLookup item.data (t.fields.get ⟨i, hi⟩).id = some (Value.vNum 0)
          ∨ dataLookup item.data (t.fields.get ⟨i, hi⟩).id = some (Value.vBool false)
          ∨ dataLookup item.data (t.fields.get ⟨i, hi⟩).id = some Value.vNull) →
        (rowFor fmt t item).get? (i + 2) = some (Value.vStr "") := by
  constructor
  · intro fmt t n g row hrow
    have htail : ((buildSheet fmt t n g).cells).tail = g.map (rowFor fmt t) := rfl
    rw [htail] at hrow
    rcases List.mem_map.1 hrow with ⟨item, hitem, hrfl⟩
    exact ⟨item, hitem, hrfl.symm⟩
  · intro fmt t item i hi hfalsy
    have hrow : (rowFor fmt t item).get? (i + 2)
        = (t.fields.map (fun field => jsOrEmpty (dataLookup item.data field.id))).get? i := by
      rfl
    rw [hrow, List.get?_map, List.get?_eq_get hi]
    show some (jsOrEmpty (dataLookup item.data (t.fields.get ⟨i, hi⟩).id))
      = some (Value.vStr "")
    rcases hfalsy with h | h | h | h | h <;> rw [h] <;> rfl

/-- Witness for C10 at a concrete input: `productB` has no value for the
`Price` field, and its exported row carries the empty string in that
column. -/
theorem export_renders_falsy_values_as_empty_string_witness :
    (rowFor (fun s => s) productsType productB).get? 3 = some (Value.vStr "") :=
  export_renders_falsy_values_as_empty_string.2 (fun s => s) productsType productB 1
    (by decide) (Or.inl (by decide))

/-! ## C3: search predicate -/

theorem matchesQuery_empty (item : ItemInstance) : matchesQuery item "" = true := by
  have h1 : lowerStr "" = "" := rfl
  simp [matchesQuery, h1, strIncludes_empty]

theorem search_body_eq_matchesQuery (item : ItemInstance) (q : String) :
    (if strIncludes (lowerStr item.typeName) (lowerStr q) then true
      else (item.data.map (fun p => p.2)).any
        (fun value => strIncludes (lowerStr value.toStr) (lowerStr q)))
    = matchesQuery item q := by
  by_cases h : strIncludes (lowerStr item.typeName) (lowerStr q) = true <;>
    simp [matchesQuery, h]

/-- C3: the search predicate holds exactly when the lowercased query is a
substring of the lowercased `typeName` or of the lowercased string form of
some value in the record's `data`; the empty query matches every record;
and both the flat item list and the project-scoped item search filter by
this same predicate. -/
theorem search_predicate_substring_semantics :
    (∀ (item : ItemInstance) (query : String),
      matchesQuery item query = true ↔
        ((lowerStr query).toList <:+: (lowerStr item.typeName).toList
          ∨ ∃ p ∈ item.data, (lowerStr query).toList <:+: (lowerStr p.2.toStr).toList))
    ∧ (∀ item : ItemInstance, matchesQuery item "" = true)
    ∧ (∀ (items : List ItemInstance) (searchTerm : String),
        filteredItems items searchTerm
          = items.filter (fun item => matchesQuery item searchTerm))
    ∧ (∀ (project : Project) (allItems : List ItemInstance) (searchTerm : String),
        filteredProjectItems project allItems searchTerm
          = (projectItems project allItems).filter
              (fun item => matchesQuery item searchTerm)) := by
  refine ⟨?_, matchesQuery_empty, ?_, ?_⟩
  · intro item query
    simp only [matchesQuery, Bool.or_eq_true, List.any_eq_true, List.mem_map,
      strIncludes_iff]
    constructor
    · rintro (h | ⟨v, ⟨p, hp, rfl⟩, hv⟩)
      · exact Or.inl h
      · exact Or.inr ⟨p, hp, hv⟩
    · rintro (h | ⟨p, hp, hv⟩)
      · exact Or.inl h
      · exact Or.inr ⟨p.2, ⟨p, hp, rfl⟩, hv⟩
  · intro items searchTerm
    rw [filteredItems]
    by_cases hq : searchTerm = ""
    · rw [if_pos hq, hq]
      exact (List.filter_eq_self.2 (fun item _ => matchesQuery_empty item)).symm
    · rw [if_neg hq]
      exact List.filter_congr (fun item _ => search_body_eq_matchesQuery item searchTerm)
  · intro project allItems searchTerm
    rw [filteredProjectItems]
    by_cases hq : searchTerm = ""
    · rw [if_pos hq, hq]
      exact (List.filter_eq_self.2 (fun item _ => matchesQuery_empty item)).symm
    · rw [if_neg hq]
      exact List.filter_congr (fun item _ => search_body_eq_matchesQuery item searchTerm)

/-- Witness for C3 at concrete inputs: searching `"widget"` keeps exactly
the record whose data holds `"Widget"`, and the empty query matches. -/
theorem search_predicate_substring_semantics_witness :
    (filteredItems [productA, productB] "widget" = [productA])
    ∧ matchesQuery productA "" = true := by
  refine ⟨?_, search_predicate_substring_semantics.2.1 productA⟩
  rw [search_predicate_substring_semantics.2.2.1 [productA, productB] "widget"]
  decide

/-! ## C1: item-creation validation -/

theorem keys_recordAssign (m : List (String × String)) (k v x : String) :
    x ∈ (recordAssign m k v).map Prod.fst ↔ x ∈ m.map Prod.fst ∨ x = k := by
  by_cases hany : m.any (fun p => p.1 == k) = true
  · have hk : k ∈ m.map Prod.fst := by
      rcases List.any_eq_true.1 hany with ⟨p, hp, hb⟩
      exact List.mem_map.2 ⟨p, hp, beq_iff_eq.1 hb⟩
    have hkeys : (recordAssign m k v).map Prod.fst = m.map Prod.fst := by
      rw [recordAssign, if_pos hany, List.map_map]
      refine List.map_congr_left ?_
      intro p _
      simp only [Function.comp]
      split
      · rename_i hc
        exact (beq_iff_eq.1 hc).symm
      · rfl
    rw [hkeys]
    constructor
    · exact Or.inl
    · rintro (h | rfl)
      · exact h
      · exact hk
  · rw [recordAssign, if_neg hany, List.map_append]
    simp [List.mem_append]

theorem keys_validate_foldl (formData : List (String × Value))
    (fields : List FieldDefinition) :
    ∀ (acc : List (String × String)) (x : String),
      (x ∈ ((fields.foldl
          (fun newErrors field =>
            if field.required && jsMissingOrEmpty (dataLookup formData field.id) then
              recordAssign newErrors field.id (field.name ++ " is required")
            else newErrors) acc).map Prod.fst)
        ↔ x ∈ acc.map Prod.fst
          ∨ ∃ f ∈ fields, f.id = x
              ∧ (f.required && jsMissingOrEmpty (dataLookup formData f.id)) = true) := by
  induction fields with
  | nil =>
    intro acc x
    simp
  | cons field rest ih =>
    intro acc x
    rw [List.foldl_cons]
    by_cases hcond : (field.required && jsMissingOrEmpty (dataLookup formData field.id)) = true
    · rw [if_pos hcond,
        ih (recordAssign acc field.id (field.name ++ " is required")) x]
      rw [keys_recordAssign]
      constructor
      · rintro ((h | rfl) | ⟨f, hf, rfl, hc⟩)
        · exact Or.inl h
        · exact Or.inr ⟨field, List.mem_cons_self field rest, rfl, hcond⟩
        · exact Or.inr ⟨f, List.mem_cons_of_mem field hf, rfl, hc⟩
      · rintro (h | ⟨f, hf, rfl, hc⟩)
        · exact Or.inl (Or.inl h)
        · rcases List.mem_cons.1 hf with rfl | hf'
          · exact Or.inl (Or.inr rfl)
          · exact Or.inr ⟨f, hf', rfl, hc⟩
    · rw [if_neg hcond, ih acc x]
      constructor
      · rintro (h | ⟨f, hf, rfl, hc⟩)
        · exact Or.inl h
        · exact Or.inr ⟨f, List.mem_cons_of_mem field hf, rfl, hc⟩
      · rintro (h | ⟨f, hf, rfl, hc⟩)
        · exact Or.inl h
        · rcases List.mem_cons.1 hf with rfl | hf'
          · exact absurd hc hcond
          · exact Or.inr ⟨f, hf', rfl, hc⟩

theorem validateFormErrors_key_iff (itemType : ItemType)
    (formData : List (String × Value)) (x : String) :
    x ∈ (validateFormErrors itemType formData).map Prod.fst
      ↔ ∃ f ∈ itemType.fields, f.id = x
          ∧ (f.required && jsMissingOrEmpty (dataLookup formData f.id)) = true := by
  have h := keys_validate_foldl formData itemType.fields [] x
  simpa [validateFormErrors] using h

/-- C1 amended: item creation fails exactly when some field with
`required = true` has a supplied value that is missing or JavaScript-falsy
(the empty string, the number 0, `false`, or `null`); no numeric
coercibility check is performed for number-kind fields.  The `newErrors`
record names every such violating field at once: its keys are exactly the
ids of the violating fields. -/
theorem createItem_fails_iff_required_field_falsy
    (itemType : ItemType) (formData : List (String × Value)) (nowId createdAt : String) :
    (handleSave itemType formData nowId createdAt = none
      ↔ ∃ f ∈ itemType.fields, f.required = true
          ∧ jsMissingOrEmpty (dataLookup formData f.id) = true)
    ∧ (∀ f ∈ itemType.fields, f.required = true →
        jsMissingOrEmpty (dataLookup formData f.id) = true →
        f.id ∈ (validateFormErrors itemType formData).map Prod.fst)
    ∧ (∀ x ∈ (validateFormErrors itemType formData).map Prod.fst,
        ∃ f ∈ itemType.fields, f.id = x ∧ f.required = true
          ∧ jsMissingOrEmpty (dataLookup formData f.id) = true) := by
  have hnone : handleSave itemType formData nowId createdAt = none
      ↔ validateForm itemType formData = false := by
    rw [handleSave]
    constructor
    · intro h
      by_cases hv : validateForm itemType formData = true
      · rw [if_pos hv] at h
        exact absurd h (by simp)
      · exact Bool.eq_false_iff.2 hv
    · intro h
      rw [if_neg (by rw [h]; exact Bool.false_ne_true)]
  have hfalse : validateForm itemType formData = false
      ↔ ∃ x, x ∈ (validateFormErrors itemType formData).map Prod.fst := by
    rw [validateForm]
    cases herr : validateFormErrors itemType formData with
    | nil => simp
    | cons e es =>
      constructor
      · intro _
        exact ⟨e.1, List.mem_map.2 ⟨e, List.mem_cons_self e es, rfl⟩⟩
      · intro _
        rfl
  refine ⟨?_, ?_, ?_⟩
  · rw [hnone, hfalse]
    constructor
    · rintro ⟨x, hx⟩
      rcases (validateFormErrors_key_iff itemType formData x).1 hx with ⟨f, hf, _, hc⟩
      rw [Bool.and_eq_true] at hc
      exact ⟨f, hf, hc.1, hc.2⟩
    · rintro ⟨f, hf, h1, h2⟩
      exact ⟨f.id, (validateFormErrors_key_iff itemType formData f.id).2
        ⟨f, hf, rfl, by rw [Bool.and_eq_true]; exact ⟨h1, h2⟩⟩⟩
  · intro f hf h1 h2
    exact (validateFormErrors_key_iff itemType formData f.id).2
      ⟨f, hf, rfl, by rw [Bool.and_eq_true]; exact ⟨h1, h2⟩⟩
  · intro x hx
    rcases (validateFormErrors_key_iff itemType formData x).1 hx with ⟨f, hf, hid, hc⟩
    rw [Bool.and_eq_true] at hc
    exact ⟨f, hf, hid, hc.1, hc.2⟩

/-- Witness for the amended C1 at a concrete input: creating a `Products`
item with no data fails, and both required fields are named in the error
record. -/
theorem createItem_fails_iff_required_field_falsy_witness :
    (handleSave productsType [] "1" "2024-02-01" = none)
    ∧ ("f1" ∈ (validateFormErrors productsType []).map Prod.fst)
    ∧ ("f2" ∈ (validateFormErrors productsType []).map Prod.fst) := by
  have h := createItem_fails_iff_required_field_falsy productsType [] "1" "2024-02-01"
  refine ⟨?_, ?_, ?_⟩
  · exact h.1.2 ⟨nameField, by decide, by decide, by decide⟩
  · exact h.2.1 nameField (by decide) (by decide) (by decide)
  · exact h.2.1 priceField (by decide) (by decide) (by decide)

/-- C1 counterexample: a type whose only field is a required number field,
supplied with the number 0 — a value that is present, is not the empty
string, and is a number literal (hence coercible).  The claim predicts
successful creation, but the code rejects it, because `0` is JS-falsy and
`validateForm` checks only falsiness. -/
theorem createItem_number_zero_counterexample :
    (dataLookup [("f2", Value.vNum 0)] "f2" = some (Value.vNum 0))
    ∧ (Value.vNum 0 ≠ Value.vStr "")
    ∧ handleSave measureType [("f2", Value.vNum 0)] "1" "c" = none := by
  decide

/-! ## C6: rendering of date-kind field values in export -/

/-- C6 counterexample: under a locale formatter that renders the stored
ISO date `"2024-01-15"` as `"1/15/2024"`, the spec's described cell
rendering (`specExportCellRendering`) gives the locale string, but the
exported row's cell for the date-kind field holds the raw stored value —
while the very same row's Created At column does go through the
formatter.  Export applies no per-kind formatting to field values. -/
theorem export_date_field_not_localeformatted_counterexample :
    ((rowFor (fun _ => "1/15/2024") dateType eventItem).get? 2
      = some (Value.vStr "2024-01-15"))
    ∧ (specExportCellRendering (fun _ => "1/15/2024") dateField eventItem.data
      = "1/15/2024")
    ∧ (Value.vStr "2024-01-15" ≠ Value.vStr "1/15/2024")
    ∧ ((rowFor (fun _ => "1/15/2024") dateType eventItem).get? 1
      = some (Value.vStr "1/15/2024")) := by
  decide

/-- C6 amended: in exported data rows only the Created At column is passed
through the locale date formatter; every field value is written as stored
when truthy and as the empty string when missing or falsy, entirely
ignoring the field's kind (re-labelling all field kinds leaves the row
unchanged).  The locale-date rendering of date-kind values exists only in
the on-screen display helper `formatFieldValue`, which export does not
use. -/
theorem export_cells_ignore_field_kind
    (fmt : String → String) (t : ItemType) (item : ItemInstance) :
    ((rowFor fmt t item).get? 1 = some (Value.vStr (fmt item.createdAt)))
    ∧ (∀ i (hi : i < t.fields.length),
        (rowFor fmt t item).get? (i + 2)
          = some (jsOrEmpty (dataLookup item.data (t.fields.get ⟨i, hi⟩).id)))
    ∧ (∀ k : FieldKind,
        rowFor fmt { t with fields := t.fields.map (fun f => { f with ftype := k }) } item
          = rowFor fmt t item)
    ∧ (∀ (v : Value) (f : FieldDefinition), f.ftype = FieldKind.date → v.truthy = true →
        formatFieldValue fmt (some v) f = fmt v.toStr) := by
  refine ⟨rfl, ?_, ?_, ?_⟩
  · intro i hi
    have hrow : (rowFor fmt t item).get? (i + 2)
        = (t.fields.map (fun field => jsOrEmpty (dataLookup item.data field.id))).get? i := by
      rfl
    rw [hrow, List.get?_map, List.get?_eq_get hi]
    rfl
  · intro k
    rw [rowFor, rowFor]
    congr 1
    congr 1
    rw [List.map_map]
    rfl
  · intro v f h1 h2
    rw [formatFieldValue, if_pos ⟨h1, h2⟩]

/-- Witness for the amended C6 at a concrete input: in the exported row of
`eventItem` the Created At column is formatted, the date field's cell is
the raw stored value, and re-labelling the field's kind changes nothing. -/
theorem export_cells_ignore_field_kind_witness :
    ((rowFor (fun _ => "X") dateType eventItem).get? 1 = some (Value.vStr "X"))
    ∧ ((rowFor (fun _ => "X") dateType eventItem).get? 2
        = some (jsOrEmpty (dataLookup eventItem.data dateField.id)))
    ∧ (rowFor (fun _ => "X")
        { dateType with fields := dateType.fields.map (fun f => { f with ftype := FieldKind.text }) }
        eventItem = rowFor (fun _ => "X") dateType eventItem)
    ∧ formatFieldValue (fun _ => "X") (some (Value.vStr "2024-01-15")) dateField = "X" := by
  have h := export_cells_ignore_field_kind (fun _ => "X") dateType eventItem
  exact ⟨h.1, h.2.1 0 (by decide), h.2.2.1 FieldKind.text,
    h.2.2.2 (Value.vStr "2024-01-15") dateField (by decide) (by decide)⟩

/-! ## C2: export partitioning, headers and row order -/

/-- A placeholder sheet, used only to rewrite `filterMap` as `map` when
every group resolves. -/
def defaultSheet : Sheet := { name := "", cells := [], colWidths := [] }

theorem buildSheet_name (fmt : String → String) (t : ItemType) (n : String)
    (g : List ItemInstance) : (buildSheet fmt t n g).name = sliceStr n 31 := rfl

theorem buildSheet_cells (fmt : String → String) (t : ItemType) (n : String)
    (g : List ItemInstance) :
    (buildSheet fmt t n g).cells
      = (Value.vStr "ID" :: Value.vStr "Created At"
          :: t.fields.map (fun f => Value.vStr f.name))
        :: g.map (rowFor fmt t) := by
  show (("ID" :: "Created At" :: t.fields.map (fun field => field.name)).map Value.vStr)
      :: g.map (rowFor fmt t) = _
  rw [List.map_cons, List.map_cons, List.map_map]
  rfl

/-- C2: under the hypothesis that every record's `typeName` resolves to
some registered type, export yields one sheet per distinct `typeName`, in
the order the names are first encountered in the input; the sheet at
position `i` is named by the `i`-th such name (truncated to 31
characters), its header row is `ID`, `Created At`, then the resolved
type's field names in declared order, and its data rows are the rendered
rows of that name's records, in input order. -/
theorem export_one_sheet_per_typeName_in_first_encounter_order
    (fmt : String → String) (itemTypes : List ItemType) (records : List ItemInstance)
    (hres : ∀ r ∈ records, ∃ t ∈ itemTypes, t.name = r.typeName) :
    ((exportSheets fmt itemTypes records).length
      = (dedupFirstAux [] (records.map (fun r => r.typeName))).length)
    ∧ ∀ i (hi : i < (dedupFirstAux [] (records.map (fun r => r.typeName))).length),
        ∃ t, itemTypes.find?
              (fun ty => ty.name
                == (dedupFirstAux [] (records.map (fun r => r.typeName))).get ⟨i, hi⟩)
            = some t
          ∧ ((exportSheets fmt itemTypes records).get? i).map Sheet.name
            = some (sliceStr
                ((dedupFirstAux [] (records.map (fun r => r.typeName))).get ⟨i, hi⟩) 31)
          ∧ ((exportSheets fmt itemTypes records).get? i).map Sheet.cells
            = some ((Value.vStr "ID" :: Value.vStr "Created At"
                  :: t.fields.map (fun f => Value.vStr f.name))
                :: (records.filter (fun r => r.typeName
                    == (dedupFirstAux [] (records.map (fun r => r.typeName))).get ⟨i, hi⟩)).map
                    (rowFor fmt t)) := by
  have hres' : ∀ p ∈ groupedByType records,
      (itemTypes.find? (fun ty => ty.name == p.1)).isSome = true := by
    intro p hp
    have hkey : p.1 ∈ (groupedByType records).map Prod.fst := List.mem_map.2 ⟨p, hp, rfl⟩
    rw [groupedByType_keys] at hkey
    have hname : p.1 ∈ records.map (fun r => r.typeName) := mem_dedupFirstAux _ [] hkey
    rcases List.mem_map.1 hname with ⟨r, hr, hrn⟩
    rcases hres r hr with ⟨t, ht, htn⟩
    rw [List.find?_isSome]
    exact ⟨t, ht, beq_iff_eq.2 (by rw [htn, hrn])⟩
  have hmap : exportSheets fmt itemTypes records
      = (groupedByType records).map
          (fun p => (match itemTypes.find? (fun ty : ItemType => ty.name == p.1) with
            | none => none
            | some itemType => some (buildSheet fmt itemType p.1 p.2)).getD defaultSheet) := by
    rw [exportSheets]
    refine filterMap_eq_map_of_all_some _ defaultSheet _ ?_
    intro p hp
    rcases Option.isSome_iff_exists.1 (hres' p hp) with ⟨t, ht⟩
    rw [ht]
    rfl
  have hkeys := groupedByType_keys records
  have hlenG : (groupedByType records).length
      = (dedupFirstAux [] (records.map (fun r => r.typeName))).length := by
    rw [← hkeys, List.length_map]
  constructor
  · rw [hmap, List.length_map, hlenG]
  · intro i hi
    have hgi : i < (groupedByType records).length := by rw [hlenG]; exact hi
    have hq : (groupedByType records).get? i
        = some ((groupedByType records).get ⟨i, hgi⟩) := List.get?_eq_get hgi
    have hfst : ((groupedByType records).get ⟨i, hgi⟩).1
        = (dedupFirstAux [] (records.map (fun r => r.typeName))).get ⟨i, hi⟩ := by
      have h1 : ((groupedByType records).map Prod.fst).get? i
          = (dedupFirstAux [] (records.map (fun r => r.typeName))).get? i := by
        rw [hkeys]
      rw [List.get?_map, hq, List.get?_eq_get hi] at h1
      exact Option.some.inj (by simpa using h1)
    have hpm : (groupedByType records).get ⟨i, hgi⟩ ∈ groupedByType records :=
      List.get_mem _ i hgi
    rcases Option.isSome_iff_exists.1 (hres' _ hpm) with ⟨t, ht⟩
    have hsnd : ((groupedByType records).get ⟨i, hgi⟩).2
        = records.filter (fun r => r.typeName
            == (dedupFirstAux [] (records.map (fun r => r.typeName))).get ⟨i, hi⟩) := by
      have hmem2 : (((groupedByType records).get ⟨i, hgi⟩).1,
          ((groupedByType records).get ⟨i, hgi⟩).2) ∈ groupedByType records := by
        rw [Prod.mk.eta]
        exact hpm
      have h2 := mem_groupedByType records _ _ hmem2
      rw [hfst] at h2
      exact h2
    have hsheet : (exportSheets fmt itemTypes records).get? i
        = some (buildSheet fmt t
            ((groupedByType records).get ⟨i, hgi⟩).1
            ((groupedByType records).get ⟨i, hgi⟩).2) := by
      rw [hmap, List.get?_map, hq, Option.map_some']
      rw [ht]
      rfl
    refine ⟨t, ?_, ?_, ?_⟩
    · rw [← hfst]
      exact ht
    · rw [hsheet, Option.map_some', buildSheet_name, hfst]
    · rw [hsheet, Option.map_some', buildSheet_cells, hsnd]

/-- Witness for C2 at the spec's own example: one `Products` type with
fields `[Name, Price]` and two product records yield a single sheet whose
header is `ID`, `Created At`, `Name`, `Price` and whose two data rows are
in input order. -/
theorem export_one_sheet_per_typeName_witness :
    ((exportSheets (fun s => s) [productsType] [productA, productB]).length = 1)
    ∧ ((exportSheets (fun s => s) [productsType] [productA, productB]).get? 0).map Sheet.cells
      = some ([Value.vStr "ID", Value.vStr "Created At", Value.vStr "Name", Value.vStr "Price"]
          :: [rowFor (fun s => s) productsType productA,
              rowFor (fun s => s) productsType productB]) := by
  have h := export_one_sheet_per_typeName_in_first_encounter_order
    (fun s => s) [productsType] [productA, productB] (by decide)
  constructor
  · rw [h.1]
    decide
  · rcases h.2 0 (by decide) with ⟨t, ht, _, hcells⟩
    have hfind : ([productsType].find?
        (fun ty => ty.name
          == (dedupFirstAux [] ([productA, productB].map (fun r => r.typeName))).get
            ⟨0, by decide⟩)) = some productsType := by decide
    have hteq : t = productsType := by
      rw [hfind] at ht
      exact (Option.some.inj ht).symm
    subst hteq
    rw [hcells]
    decide

/-! ## C8: unresolved groups are skipped; first matching type wins -/

theorem exportSheets_length_eq_resolved_count (fmt : String → String)
    (itemTypes : List ItemType) (records : List ItemInstance) :
    (exportSheets fmt itemTypes records).length
      = ((dedupFirstAux [] (records.map (fun r => r.typeName))).filter
          (fun n => (itemTypes.find? (fun ty => ty.name == n)).isSome)).length := by
  rw [exportSheets, length_filterMap_eq_length_filter]
  have h1 : (groupedByType records).filter
      (fun p => ((match itemTypes.find? (fun ty : ItemType => ty.name == p.1) with
        | none => none
        | some itemType => some (buildSheet fmt itemType p.1 p.2)) : Option Sheet).isSome)
      = (groupedByType records).filter
        (fun p => (itemTypes.find? (fun ty => ty.name == p.1)).isSome) := by
    refine List.filter_congr ?_
    intro p _
    cases h : itemTypes.find? (fun ty : ItemType => ty.name == p.1) <;> rfl
  rw [h1, ← groupedByType_keys records, List.filter_map, List.length_map]
  rfl

/-- C8: a group whose `typeName` matches no registered type contributes no
sheet — the sheet count equals the number of first-encounter type names
that resolve, a wholly unresolvable selection yields an empty workbook
rather than an error, and when several types share the group's name the
first one in registry order supplies the fields. -/
theorem export_skips_unresolved_groups_and_uses_first_match :
    (∀ (fmt : String → String) (itemTypes : List ItemType) (records : List ItemInstance),
      (exportSheets fmt itemTypes records).length
        = ((dedupFirstAux [] (records.map (fun r => r.typeName))).filter
            (fun n => (itemTypes.find? (fun ty => ty.name == n)).isSome)).length)
    ∧ (∀ (fmt : String → String) (itemTypes : List ItemType) (records : List ItemInstance),
        (∀ t ∈ itemTypes, ∀ r ∈ records, t.name ≠ r.typeName) →
        exportSheets fmt itemTypes records = [])
    ∧ (∀ (fmt : String → String) (ts₂ : List ItemType) (tA tB : ItemType)
        (records : List ItemInstance) (n : String),
        tA.name = n → tB.name = n → records ≠ [] → (∀ r ∈ records, r.typeName = n) →
        exportSheets fmt (tA :: tB :: ts₂) records = [buildSheet fmt tA n records]) := by
  refine ⟨exportSheets_length_eq_resolved_count, ?_, ?_⟩
  · intro fmt itemTypes records hnone
    have hfil : (dedupFirstAux [] (records.map (fun r => r.typeName))).filter
        (fun n => (itemTypes.find? (fun ty => ty.name == n)).isSome) = [] := by
      rw [List.filter_eq_nil]
      intro n hn hsome
      have hnames : n ∈ records.map (fun r => r.typeName) := mem_dedupFirstAux _ [] hn
      rcases List.mem_map.1 hnames with ⟨r, hr, rfl⟩
      rw [List.find?_isSome] at hsome
      rcases hsome with ⟨t, ht, hb⟩
      exact hnone t ht r hr (beq_iff_eq.1 hb)
    have hlen := exportSheets_length_eq_resolved_count fmt itemTypes records
    rw [hfil] at hlen
    exact List.length_eq_zero.1 hlen
  · intro fmt ts₂ tA tB records n hA hB hne hall
    have hk : (groupedByType records).map Prod.fst = [n] := by
      rw [groupedByType_keys]
      refine dedupFirstAux_const _ ?_ ?_
      · simp [hne]
      · intro x hx
        rcases List.mem_map.1 hx with ⟨r, hr, rfl⟩
        exact hall r hr
    have hgroup : groupedByType records = [(n, records)] := by
      cases hG : groupedByType records with
      | nil => rw [hG] at hk; exact absurd hk (by simp)
      | cons p ps =>
        cases ps with
        | cons q qs =>
          rw [hG] at hk
          exact absurd hk (by simp)
        | nil =>
          obtain ⟨a, b⟩ := p
          rw [hG] at hk
          have ha : a = n := by simpa using hk
          subst ha
          have hmem : (a, b) ∈ groupedByType records := by rw [hG]; simp
          have hb2 := mem_groupedByType records a b hmem
          have hflt : records.filter (fun r => r.typeName == a) = records :=
            List.filter_eq_self.2 (fun r hr => beq_iff_eq.2 (hall r hr))
          rw [hflt] at hb2
          rw [hb2]
    rw [exportSheets, hgroup]
    have hb : (tA.name == n) = true := beq_iff_eq.2 hA
    have hfind : (tA :: tB :: ts₂).find? (fun ty => ty.name == n) = some tA := by
      simp [List.find?_cons, hb]
    simp [List.filterMap_cons, hfind]

/-- A second type that shares the name `Products` but has different
fields, to exercise first-match resolution. -/
def productsTypeAlt : ItemType :=
  { id := "type_2", name := "Products", fields := [nameField], createdAt := "2024-01-09" }

/-- Witness for C8 at concrete inputs: with no registered types the export
of a product yields no sheet (and no error), and with two types both named
`Products` the first one in registry order supplies the sheet. -/
theorem export_skips_unresolved_groups_witness :
    (exportSheets (fun s => s) [] [productA] = [])
    ∧ (exportSheets (fun s => s) [productsType, productsTypeAlt] [productA]
        = [buildSheet (fun s => s) productsType "Products" [productA]]) := by
  constructor
  · exact export_skips_unresolved_groups_and_uses_first_match.2.1 (fun s => s) [] [productA]
      (fun t ht => absurd ht (List.not_mem_nil t))
  · exact export_skips_unresolved_groups_and_uses_first_match.2.2 (fun s => s) []
      productsType productsTypeAlt [productA] "Products" rfl rfl (by decide) (by decide)
